import Mathlib

/-!
# Teleop glue of the Shockwave robot (`src/main.cpp`)

A shallow embedding of the driver-control code of `src/main.cpp`.  The program
talks to its collaborators (chassis facade, motors, pneumatic solenoid, RTOS
delay) only through fire-and-forget calls, so every function of the source is
embedded as the list of calls it issues, in program order, together with the
new value of the local variable it updates.  Values polled from the
controller and the vision sensor are inputs of the embedding.
-/

namespace Shockwave

/-! ## Machine integers -/

/-- Wrap (modulo 2^32) of an integer into the range of a C++ `int` (32 bit). -/
def wrap32 (x : Int) : Int := (x + 2 ^ 31) % 2 ^ 32 - 2 ^ 31

/-- Unary minus on a C++ `int`. -/
def neg32 (x : Int) : Int := wrap32 (-x)

/-- Truth value of an `int32_t` reading used as an `if` condition. -/
def truthy (v : Int) : Bool := v != 0

/-- Reading returned by `controller.get_digital` for a button level:
1 when the button is held, 0 when it is not. -/
def digitalLevel (held : Bool) : Int := if held then 1 else 0

/-! ## Calls issued to the collaborators -/

/-- One call issued by the teleop task. -/
inductive Event where
  /-- The call `chassis.arcade(a, b)`, arguments in positional order. -/
  | arcade (a b : Int)
  /-- The call `chassis.tank(a, b)`; commented out at line 212, never issued. -/
  | tank (a b : Int)
  /-- The call `pros::delay(ms)`. -/
  | delay (ms : Nat)
  /-- The call `intakeMotor.move(power)`. -/
  | intakeMove (power : Int)
  /-- The call `sortMotor.move(power)`. -/
  | sortMove (power : Int)
  /-- The call `matchLoad.extend()`. -/
  | extend
  /-- The call `matchLoad.retract()`. -/
  | retract
  deriving DecidableEq

namespace Event

/-- Pneumatic commands: `extend` and `retract`. -/
def isPneumatic : Event → Bool
  | extend => true
  | retract => true
  | _ => false

/-- Drive commands: `arcade` and `tank`. -/
def isDrive : Event → Bool
  | arcade _ _ => true
  | tank _ _ => true
  | _ => false

/-- Intake commands. -/
def isIntake : Event → Bool
  | intakeMove _ => true
  | _ => false

/-- Sort-motor commands. -/
def isSort : Event → Bool
  | sortMove _ => true
  | _ => false

/-- Milliseconds the task is suspended by the call. -/
def delayMs : Event → Nat
  | delay ms => ms
  | _ => 0

end Event

/-- Pneumatic commands of a trace, in order. -/
def pneumaticCommands (tr : List Event) : List Event := tr.filter Event.isPneumatic

/-- Drive commands of a trace, in order. -/
def driveCommands (tr : List Event) : List Event := tr.filter Event.isDrive

/-- Powers of the sort-motor commands of a trace, in order. -/
def sortPowers : List Event → List Int
  | [] => []
  | Event.sortMove p :: rest => p :: sortPowers rest
  | _ :: rest => sortPowers rest

/-- Powers of the intake commands of a trace, in order. -/
def intakePowers : List Event → List Int
  | [] => []
  | Event.intakeMove p :: rest => p :: intakePowers rest
  | _ :: rest => intakePowers rest

/-- Accumulated delay of a trace, in milliseconds. -/
def totalDelay (tr : List Event) : Nat := (tr.map Event.delayMs).sum

/-- The most recent pneumatic command of a trace, if any. -/
def lastPneumatic (tr : List Event) : Option Event := (pneumaticCommands tr).getLast?

/-! ## Static configuration (lines 9-41) -/

/-- Signed smart ports of `leftMotors` (line 9). -/
def leftMotors : List Int := [18, -19, 20]

/-- Signed smart ports of `rightMotors` (line 11). -/
def rightMotors : List Int := [-11, 12, 13]

/-- Smart port of `imu` (line 14). -/
def imu : Int := 1

/-- Smart port of `intakeMotor` (line 17). -/
def intakeMotor : Int := 17

/-- Smart port of `outtakeMotor` (line 18). -/
def outtakeMotor : Int := 6

/-- Smart port of `sortMotor` (line 19). -/
def sortMotor : Int := 9

/-- Smart port of `visionSensor` (line 26). -/
def visionSensor : Int := 8

/-- Signed smart port of `horizontalEnc` (line 35). -/
def horizontalEnc : Int := 20

/-- Signed smart port of `verticalEnc` (line 37). -/
def verticalEnc : Int := -11

/-- The smart-port table: every device with the signed ports it is bound to,
in declaration order.  The alias group `int_outGroup` (line 22) is left out. -/
def portTable : List (String × List Int) :=
  [("leftMotors", leftMotors), ("rightMotors", rightMotors), ("imu", [imu]),
   ("intakeMotor", [intakeMotor]), ("outtakeMotor", [outtakeMotor]),
   ("sortMotor", [sortMotor]), ("visionSensor", [visionSensor]),
   ("horizontalEnc", [horizontalEnc]), ("verticalEnc", [verticalEnc])]

/-- Physical ports of the table: absolute values of all signed port numbers. -/
def physicalPorts : List Nat := (portTable.map Prod.snd).flatten.map Int.natAbs

/-- Colour-classification descriptor: an id and the integer channel
thresholds.  The floating-point range is read by no code of `main.cpp` and is
left out. -/
structure vision_signature_s_t where
  id : Nat
  u_min : Int
  u_max : Int
  u_mean : Int
  v_min : Int
  v_max : Int
  v_mean : Int
  sig_type : Nat
  deriving DecidableEq

/-- Modelled from the spec: the `signature_from_utility` routine of the vision
collaborator is not in `src/`; a vision signature is "a static color-classification
descriptor (id + channel thresholds)", so the descriptor stores the id and
thresholds it is given. -/
def signature_from_utility (id : Nat) (u_min u_max u_mean v_min v_max v_mean : Int)
    (sig_type : Nat) : vision_signature_s_t :=
  ⟨id, u_min, u_max, u_mean, v_min, v_max, v_mean, sig_type⟩

/-- The blue signature (line 27). -/
def BLUE_SIG : vision_signature_s_t :=
  signature_from_utility 2 (-2867) (-2599) (-2733) 8151 8837 8494 0

/-- The red signature (line 28). -/
def RED_SIG : vision_signature_s_t :=
  signature_from_utility 3 6769 9551 8160 (-1367) (-449) (-908) 0

/-- The fields of a detected vision object that `colorSort` reads. -/
structure vision_object_s_t where
  signature : Nat
  width : Int
  deriving DecidableEq

/-! ## Functions of `main.cpp` -/

/-- Lines 240-242: `in_out` forwards its power to the intake motor. -/
def in_out (in_out_power : Int) : List Event := [Event.intakeMove in_out_power]

/-- Lines 245-247: `sort` forwards its power to the sort motor. -/
def sort (sortPower : Int) : List Event := [Event.sortMove sortPower]

/-- Lines 250-260: `manual_in_out`, given the readings of `DIGITAL_R1` and
`DIGITAL_R2`. -/
def manual_in_out (r1 r2 : Int) : List Event :=
  if truthy r1 then in_out 127
  else if truthy r2 then in_out (-127)
  else in_out 0

/-- Lines 276-293: `colorSort`, given the object returned by
`visionSensor.get_by_size(0)`. -/
def colorSort (block : vision_object_s_t) : List Event :=
  if block.signature = RED_SIG.id ∧ block.width > 100 then
    sort 127 ++ [Event.delay 500]
  else if block.signature = BLUE_SIG.id ∧ block.width > 100 then
    sort (-127) ++ [Event.delay 500]
  else
    sort 0

/-- Values polled during one iteration of the `opcontrol` loop, each at the
point where the source reads it. -/
structure Inputs where
  leftY : Int
  rightX : Int
  r1 : Int
  r2 : Int
  block : vision_object_s_t
  x : Int
  deriving DecidableEq

/-- Lines 225-235: the pneumatics toggle block, given the reading of
`DIGITAL_X` and the latch; returns the calls issued and the new latch. -/
def pneumaticsToggle (x : Int) (pistonToggle : Bool) : List Event × Bool :=
  if truthy x then
    if pistonToggle = false then ([Event.extend, Event.delay 250], true)
    else ([Event.retract, Event.delay 250], false)
  else ([], pistonToggle)

/-- Lines 208-235: one iteration of the `while (true)` loop of `opcontrol`;
returns the calls issued and the latch at the end of the iteration. -/
def opcontrol_body (pistonToggle : Bool) (i : Inputs) : List Event × Bool :=
  ([Event.arcade (neg32 i.rightX) (neg32 i.leftY), Event.delay 10]
      ++ manual_in_out i.r1 i.r2
      ++ colorSort i.block
      ++ (pneumaticsToggle i.x pistonToggle).1,
    (pneumaticsToggle i.x pistonToggle).2)

/-- The loop of `opcontrol` run from a given latch value for one iteration
per element of `inputs`; returns the trace and the latch afterwards. -/
def opcontrol_loop (pistonToggle : Bool) : List Inputs → List Event × Bool
  | [] => ([], pistonToggle)
  | i :: rest =>
    ((opcontrol_body pistonToggle i).1
        ++ (opcontrol_loop (opcontrol_body pistonToggle i).2 rest).1,
      (opcontrol_loop (opcontrol_body pistonToggle i).2 rest).2)

/-- Lines 198-237: `opcontrol` declares `pistonToggle = false` (line 205)
and enters the loop. -/
def opcontrol (inputs : List Inputs) : List Event × Bool := opcontrol_loop false inputs

/-- Number of iterations in which `DIGITAL_X` is read as pressed. -/
def pressCount (inputs : List Inputs) : Nat := (inputs.filter (fun i => truthy i.x)).length

/-- The latch agrees with the actuator: it is set exactly when the most
recent pneumatic command of the trace is `extend` (and clear when there is
none, the solenoid being constructed retracted at line 31). -/
def LatchAgrees (pistonToggle : Bool) (tr : List Event) : Prop :=
  pistonToggle = true ↔ lastPneumatic tr = some Event.extend

instance (pistonToggle : Bool) (tr : List Event) : Decidable (LatchAgrees pistonToggle tr) := by
  unfold LatchAgrees
  infer_instance

/-- An iteration with both sticks centred, no button held and no object seen. -/
def idleInputs : Inputs := ⟨0, 0, 0, 0, ⟨0, 0⟩, 0⟩

/-- An idle iteration except that button X is held. -/
def holdX : Inputs := ⟨0, 0, 0, 0, ⟨0, 0⟩, 1⟩

/-- An iteration with both sticks pushed to their limits, X held and a wide
red object in view. -/
def busyInputs : Inputs := ⟨127, -127, 1, 0, ⟨3, 150⟩, 1⟩

/-- Every pneumatic command of the trace is directly followed by the call
`pros::delay(250)`. -/
def debounced : List Event → Bool
  | [] => true
  | e :: rest => (!e.isPneumatic || rest.head? == some (Event.delay 250)) && debounced rest

/-- A detected object matches when it carries the red id (3) or the blue id
(2) and is wider than 100 pixels. -/
def sortMatch (block : vision_object_s_t) : Bool :=
  (block.signature = 3 ∨ block.signature = 2) ∧ block.width > 100

/-! ## Auxiliary facts -/

theorem neg32_of_small (x : Int) (h1 : -127 ≤ x) (h2 : x ≤ 127) : neg32 x = -x := by
  unfold neg32 wrap32
  omega

theorem pneumaticCommands_append (a b : List Event) :
    pneumaticCommands (a ++ b) = pneumaticCommands a ++ pneumaticCommands b := by
  simp [pneumaticCommands]

theorem pneumaticCommands_manual_in_out (r1 r2 : Int) :
    pneumaticCommands (manual_in_out r1 r2) = [] := by
  unfold manual_in_out in_out
  split_ifs <;> simp [pneumaticCommands, Event.isPneumatic]

theorem pneumaticCommands_colorSort (block : vision_object_s_t) :
    pneumaticCommands (colorSort block) = [] := by
  unfold colorSort sort
  split_ifs <;> simp [pneumaticCommands, Event.isPneumatic]

theorem pneumaticCommands_toggle (x : Int) (pt : Bool) :
    pneumaticCommands (pneumaticsToggle x pt).1 =
      if truthy x then [if pt then Event.retract else Event.extend] else [] := by
  unfold pneumaticsToggle
  cases pt <;> cases truthy x <;> simp [pneumaticCommands, Event.isPneumatic]

theorem pneumaticsToggle_latch (x : Int) (pt : Bool) :
    (pneumaticsToggle x pt).2 = if truthy x then !pt else pt := by
  unfold pneumaticsToggle
  cases pt <;> cases truthy x <;> simp

theorem pneumaticCommands_body (pt : Bool) (i : Inputs) :
    pneumaticCommands (opcontrol_body pt i).1 =
      if truthy i.x then [if pt then Event.retract else Event.extend] else [] := by
  unfold opcontrol_body
  simp only [pneumaticCommands_append, pneumaticCommands_manual_in_out,
    pneumaticCommands_colorSort, pneumaticCommands_toggle]
  simp [pneumaticCommands, Event.isPneumatic]

theorem opcontrol_body_latch (pt : Bool) (i : Inputs) :
    (opcontrol_body pt i).2 = if truthy i.x then !pt else pt := by
  unfold opcontrol_body
  exact pneumaticsToggle_latch i.x pt

theorem opcontrol_loop_append (pt : Bool) (a b : List Inputs) :
    opcontrol_loop pt (a ++ b) =
      ((opcontrol_loop pt a).1 ++ (opcontrol_loop (opcontrol_loop pt a).2 b).1,
        (opcontrol_loop (opcontrol_loop pt a).2 b).2) := by
  induction a generalizing pt with
  | nil => simp [opcontrol_loop]
  | cons i rest ih => simp [opcontrol_loop, ih, List.append_assoc]

theorem opcontrol_loop_snoc (pt : Bool) (a : List Inputs) (i : Inputs) :
    opcontrol_loop pt (a ++ [i]) =
      ((opcontrol_loop pt a).1 ++ (opcontrol_body (opcontrol_loop pt a).2 i).1,
        (opcontrol_body (opcontrol_loop pt a).2 i).2) := by
  rw [opcontrol_loop_append]
  simp [opcontrol_loop]

theorem pressCount_snoc (a : List Inputs) (i : Inputs) :
    pressCount (a ++ [i]) = pressCount a + if truthy i.x then 1 else 0 := by
  unfold pressCount
  cases h : truthy i.x <;> simp [List.filter_append, h]

theorem opcontrol_loop_latch (pt : Bool) (inputs : List Inputs) :
    (opcontrol_loop pt inputs).2 = xor pt (decide (pressCount inputs % 2 = 1)) := by
  induction inputs using List.reverseRecOn with
  | nil => simp [opcontrol_loop, pressCount]
  | append_singleton a i ih =>
    rw [opcontrol_loop_snoc, pressCount_snoc]
    simp only [opcontrol_body_latch, ih]
    cases h : truthy i.x
    · simp
    · rcases Nat.mod_two_eq_zero_or_one (pressCount a) with h0 | h1
      · have : (pressCount a + 1) % 2 = 1 := by omega
        cases pt <;> simp [h0, this]
      · have : (pressCount a + 1) % 2 = 0 := by omega
        cases pt <;> simp [h1, this]

theorem driveCommands_append (a b : List Event) :
    driveCommands (a ++ b) = driveCommands a ++ driveCommands b := by
  simp [driveCommands]

theorem driveCommands_manual_in_out (r1 r2 : Int) :
    driveCommands (manual_in_out r1 r2) = [] := by
  unfold manual_in_out in_out
  split_ifs <;> simp [driveCommands, Event.isDrive]

theorem driveCommands_colorSort (block : vision_object_s_t) :
    driveCommands (colorSort block) = [] := by
  unfold colorSort sort
  split_ifs <;> simp [driveCommands, Event.isDrive]

theorem driveCommands_toggle (x : Int) (pt : Bool) :
    driveCommands (pneumaticsToggle x pt).1 = [] := by
  unfold pneumaticsToggle
  cases pt <;> cases truthy x <;> simp [driveCommands, Event.isDrive]

theorem lastPneumatic_append_quiet (tr ev : List Event) (h : pneumaticCommands ev = []) :
    lastPneumatic (tr ++ ev) = lastPneumatic tr := by
  simp [lastPneumatic, pneumaticCommands_append, h]

theorem latchAgrees_append_quiet (pt : Bool) (tr ev : List Event)
    (h : pneumaticCommands ev = []) (hag : LatchAgrees pt tr) : LatchAgrees pt (tr ++ ev) := by
  unfold LatchAgrees at *
  rw [lastPneumatic_append_quiet tr ev h]
  exact hag

theorem latchAgrees_toggle (pt : Bool) (tr : List Event) (x : Int) (hag : LatchAgrees pt tr) :
    LatchAgrees (pneumaticsToggle x pt).2 (tr ++ (pneumaticsToggle x pt).1) := by
  cases hx : truthy x
  · have h1 : pneumaticsToggle x pt = ([], pt) := by simp [pneumaticsToggle, hx]
    rw [h1]
    simpa using hag
  · cases pt
    · have h1 : pneumaticsToggle x false = ([Event.extend, Event.delay 250], true) := by
        simp [pneumaticsToggle, hx]
      rw [h1]
      simp [LatchAgrees, lastPneumatic, pneumaticCommands_append, pneumaticCommands,
        Event.isPneumatic]
    · have h1 : pneumaticsToggle x true = ([Event.retract, Event.delay 250], false) := by
        simp [pneumaticsToggle, hx]
      rw [h1]
      simp [LatchAgrees, lastPneumatic, pneumaticCommands_append, pneumaticCommands,
        Event.isPneumatic]

theorem latchAgrees_body (pt : Bool) (tr : List Event) (i : Inputs) (hag : LatchAgrees pt tr) :
    LatchAgrees (opcontrol_body pt i).2 (tr ++ (opcontrol_body pt i).1) := by
  unfold opcontrol_body
  have h1 := latchAgrees_append_quiet pt tr
    [Event.arcade (neg32 i.rightX) (neg32 i.leftY), Event.delay 10]
    (by simp [pneumaticCommands, Event.isPneumatic]) hag
  have h2 := latchAgrees_append_quiet pt _ _ (pneumaticCommands_manual_in_out i.r1 i.r2) h1
  have h3 := latchAgrees_append_quiet pt _ _ (pneumaticCommands_colorSort i.block) h2
  have h4 := latchAgrees_toggle pt _ i.x h3
  simpa [List.append_assoc] using h4

theorem latchAgrees_loop (inputs : List Inputs) (tr : List Event) (pt : Bool)
    (hag : LatchAgrees pt tr) :
    LatchAgrees (opcontrol_loop pt inputs).2 (tr ++ (opcontrol_loop pt inputs).1) := by
  induction inputs generalizing tr pt with
  | nil => simpa [opcontrol_loop] using hag
  | cons i rest ih =>
    have h1 := latchAgrees_body pt tr i hag
    have h2 := ih _ _ h1
    simpa [opcontrol_loop, List.append_assoc] using h2

theorem debounced_append_quiet (a b : List Event) (h : pneumaticCommands a = []) :
    debounced (a ++ b) = debounced b := by
  induction a with
  | nil => rfl
  | cons e rest ih =>
    have he : e.isPneumatic = false := by
      cases hp : e.isPneumatic
      · rfl
      · simp [pneumaticCommands, List.filter_cons, hp] at h
    have hr : pneumaticCommands rest = [] := by
      simpa [pneumaticCommands, List.filter_cons, he] using h
    simp [debounced, he, ih hr]

theorem debounced_toggle_append (x : Int) (pt : Bool) (b : List Event) :
    debounced ((pneumaticsToggle x pt).1 ++ b) = debounced b := by
  unfold pneumaticsToggle
  cases pt <;> cases truthy x <;> simp [debounced, Event.isPneumatic]

theorem debounced_body_append (pt : Bool) (i : Inputs) (b : List Event) :
    debounced ((opcontrol_body pt i).1 ++ b) = debounced b := by
  unfold opcontrol_body
  simp only [List.append_assoc]
  rw [debounced_append_quiet _ _ (by simp [pneumaticCommands, Event.isPneumatic]),
    debounced_append_quiet _ _ (pneumaticCommands_manual_in_out _ _),
    debounced_append_quiet _ _ (pneumaticCommands_colorSort _),
    debounced_toggle_append]

theorem debounced_loop (pt : Bool) (inputs : List Inputs) :
    debounced (opcontrol_loop pt inputs).1 = true := by
  induction inputs generalizing pt with
  | nil => rfl
  | cons i rest ih =>
    simp only [opcontrol_loop]
    rw [debounced_body_append]
    exact ih _

theorem debounced_drop (a b : List Event) (h : debounced (a ++ b) = true) :
    debounced b = true := by
  induction a with
  | nil => simpa using h
  | cons e rest ih =>
    simp only [List.cons_append, debounced, Bool.and_eq_true] at h
    exact ih h.2

theorem totalDelay_append (a b : List Event) :
    totalDelay (a ++ b) = totalDelay a + totalDelay b := by
  simp [totalDelay]

theorem totalDelay_manual_in_out (r1 r2 : Int) : totalDelay (manual_in_out r1 r2) = 0 := by
  unfold manual_in_out in_out
  split_ifs <;> simp [totalDelay, Event.delayMs]

theorem totalDelay_toggle (x : Int) (pt : Bool) :
    totalDelay (pneumaticsToggle x pt).1 = if truthy x then 250 else 0 := by
  unfold pneumaticsToggle
  cases pt <;> cases truthy x <;> simp [totalDelay, Event.delayMs]

theorem intakePowers_toggle (x : Int) (pt : Bool) :
    intakePowers (pneumaticsToggle x pt).1 = [] := by
  unfold pneumaticsToggle
  cases pt <;> cases truthy x <;> simp [intakePowers]

theorem sortPowers_toggle (x : Int) (pt : Bool) :
    sortPowers (pneumaticsToggle x pt).1 = [] := by
  unfold pneumaticsToggle
  cases pt <;> cases truthy x <;> simp [sortPowers]

theorem sortPowers_manual_in_out (r1 r2 : Int) : sortPowers (manual_in_out r1 r2) = [] := by
  unfold manual_in_out in_out
  split_ifs <;> simp [sortPowers]

theorem sortPowers_append (a b : List Event) :
    sortPowers (a ++ b) = sortPowers a ++ sortPowers b := by
  induction a with
  | nil => rfl
  | cons e rest ih => cases e <;> simp [sortPowers, ih]

theorem colorSort_of_match (block : vision_object_s_t) (h : sortMatch block = true) :
    colorSort block =
      [Event.sortMove (if block.signature = 3 then 127 else -127), Event.delay 500] := by
  have hr : RED_SIG.id = 3 := rfl
  have hb : BLUE_SIG.id = 2 := rfl
  simp only [sortMatch, decide_eq_true_eq] at h
  unfold colorSort sort
  rw [hr, hb]
  rcases h with ⟨h3 | h2, hw⟩
  · simp [h3, hw]
  · simp [h2, hw]

theorem colorSort_of_not_match (block : vision_object_s_t) (h : sortMatch block = false) :
    colorSort block = [Event.sortMove 0] := by
  have hr : RED_SIG.id = 3 := rfl
  have hb : BLUE_SIG.id = 2 := rfl
  simp only [sortMatch, decide_eq_false_iff_not, not_and, not_lt] at h
  unfold colorSort sort
  rw [hr, hb]
  have h1 : ¬ (block.signature = 3 ∧ block.width > 100) := fun hh =>
    absurd hh.2 (not_lt.mpr (h (Or.inl hh.1)))
  have h2 : ¬ (block.signature = 2 ∧ block.width > 100) := fun hh =>
    absurd hh.2 (not_lt.mpr (h (Or.inr hh.1)))
  simp [h1, h2]

theorem pneumaticCommands_loop_length (pt : Bool) (held : List Inputs)
    (h : ∀ i ∈ held, truthy i.x = true) :
    (pneumaticCommands (opcontrol_loop pt held).1).length = held.length := by
  induction held generalizing pt with
  | nil => simp [opcontrol_loop, pneumaticCommands]
  | cons i rest ih =>
    have hi : truthy i.x = true := h i (List.mem_cons_self _ _)
    have hrest : ∀ j ∈ rest, truthy j.x = true := fun j hj => h j (List.mem_cons_of_mem _ hj)
    simp only [opcontrol_loop, pneumaticCommands_append, List.length_append, List.length_cons]
    rw [ih _ hrest, pneumaticCommands_body, hi]
    simp [Nat.add_comm]

theorem pressCount_of_held (held : List Inputs) (h : ∀ i ∈ held, truthy i.x = true) :
    pressCount held = held.length := by
  unfold pressCount
  rw [List.filter_eq_self.mpr h]

/-! ## Manual override and colour sort -/

/-- C1: for every pair of button levels, one call of `manual_in_out` issues
exactly one intake command: +127 when R1 is held whatever R2 is, -127 when R2
is held and R1 is not, 0 when neither is held. -/
theorem manual_in_out_command :
    (∀ R2 : Bool, manual_in_out (digitalLevel true) (digitalLevel R2) = [Event.intakeMove 127]) ∧
    manual_in_out (digitalLevel false) (digitalLevel true) = [Event.intakeMove (-127)] ∧
    manual_in_out (digitalLevel false) (digitalLevel false) = [Event.intakeMove 0] := by
  refine ⟨fun R2 => ?_, ?_, ?_⟩ <;> simp [manual_in_out, in_out, digitalLevel, truthy]

/-- C2: for every detected object, one call of `colorSort` issues exactly one
sort-motor command: +127 for signature 3 (red) with width above 100, -127 for
signature 2 (blue) with width above 100, and 0 in every other case. -/
theorem colorSort_command (block : vision_object_s_t) :
    sortPowers (colorSort block) =
      [if block.signature = 3 ∧ block.width > 100 then 127
       else if block.signature = 2 ∧ block.width > 100 then -127
       else 0] := by
  unfold colorSort
  have hr : RED_SIG.id = 3 := rfl
  have hb : BLUE_SIG.id = 2 := rfl
  rw [hr, hb]
  split_ifs <;> simp [sort, sortPowers]

/-! ## The drive command -/

/-- C5: for joystick readings within [-127, 127], one iteration of the
`opcontrol` loop issues exactly one drive command, the call
`chassis.arcade(-rightX, -leftY)` on the axes read in that iteration, and no
tank call. -/
theorem opcontrol_body_drive (pistonToggle : Bool) (i : Inputs)
    (hL : -127 ≤ i.leftY ∧ i.leftY ≤ 127) (hR : -127 ≤ i.rightX ∧ i.rightX ≤ 127) :
    driveCommands (opcontrol_body pistonToggle i).1 = [Event.arcade (-i.rightX) (-i.leftY)] := by
  unfold opcontrol_body
  rw [neg32_of_small _ hL.1 hL.2, neg32_of_small _ hR.1 hR.2]
  simp only [driveCommands_append, driveCommands_manual_in_out, driveCommands_colorSort,
    driveCommands_toggle]
  simp [driveCommands, Event.isDrive]

/-- Witness of C5 at full stick deflection. -/
theorem opcontrol_body_drive_witness :
    (-127 ≤ busyInputs.leftY ∧ busyInputs.leftY ≤ 127) ∧
    (-127 ≤ busyInputs.rightX ∧ busyInputs.rightX ≤ 127) ∧
    driveCommands (opcontrol_body false busyInputs).1 = [Event.arcade 127 (-127)] :=
  ⟨by decide, by decide, opcontrol_body_drive false busyInputs (by decide) (by decide)⟩

/-! ## The pneumatic toggle -/

/-- C3: starting from the retracted latch, the iteration that reads the n-th
press of button X issues exactly one pneumatic command, `extend` when n is
odd and `retract` when n is even, and sets the latch accordingly; an
iteration that reads X as not pressed issues no pneumatic command and leaves
the latch unchanged. -/
theorem toggle_alternates (before : List Inputs) (i : Inputs) :
    (opcontrol (before ++ [i])).1 =
        (opcontrol before).1 ++ (opcontrol_body (opcontrol before).2 i).1 ∧
    pneumaticCommands (opcontrol_body (opcontrol before).2 i).1 =
        (if truthy i.x then
          [if pressCount (before ++ [i]) % 2 = 1 then Event.extend else Event.retract]
         else []) ∧
    (opcontrol (before ++ [i])).2 =
        (if truthy i.x then decide (pressCount (before ++ [i]) % 2 = 1)
         else (opcontrol before).2) := by
  unfold opcontrol
  rw [opcontrol_loop_snoc, pneumaticCommands_body, opcontrol_body_latch,
    opcontrol_loop_latch, pressCount_snoc]
  refine ⟨rfl, ?_, ?_⟩
  · cases h : truthy i.x
    · simp
    · rcases Nat.mod_two_eq_zero_or_one (pressCount before) with h0 | h1
      · have : (pressCount before + 1) % 2 = 1 := by omega
        simp [h0, this]
      · have : (pressCount before + 1) % 2 = 0 := by omega
        simp [h1, this]
  · cases h : truthy i.x
    · simp
    · rcases Nat.mod_two_eq_zero_or_one (pressCount before) with h0 | h1
      · have : (pressCount before + 1) % 2 = 1 := by omega
        simp [h0, this]
      · have : (pressCount before + 1) % 2 = 0 := by omega
        simp [h1, this]

/-- C10: at the start of every iteration of the `opcontrol` loop the latch
`pistonToggle` is set exactly when the most recent pneumatic command was
`extend` (clear when none was issued), and each operation of the loop body
(arcade with its delay, `manual_in_out`, `colorSort`, the toggle block)
preserves this agreement. -/
theorem latch_agrees_with_actuator :
    (∀ inputs : List Inputs, LatchAgrees (opcontrol inputs).2 (opcontrol inputs).1) ∧
    (∀ (tr : List Event) (pt : Bool), LatchAgrees pt tr → ∀ i : Inputs,
      LatchAgrees pt (tr ++ [Event.arcade (neg32 i.rightX) (neg32 i.leftY), Event.delay 10]) ∧
      LatchAgrees pt (tr ++ manual_in_out i.r1 i.r2) ∧
      LatchAgrees pt (tr ++ colorSort i.block) ∧
      LatchAgrees (pneumaticsToggle i.x pt).2 (tr ++ (pneumaticsToggle i.x pt).1)) := by
  refine ⟨fun inputs => ?_, fun tr pt h i => ⟨?_, ?_, ?_, ?_⟩⟩
  · have := latchAgrees_loop inputs [] false (by decide)
    simpa [opcontrol] using this
  · exact latchAgrees_append_quiet pt tr _ (by simp [pneumaticCommands, Event.isPneumatic]) h
  · exact latchAgrees_append_quiet pt tr _ (pneumaticCommands_manual_in_out _ _) h
  · exact latchAgrees_append_quiet pt tr _ (pneumaticCommands_colorSort _) h
  · exact latchAgrees_toggle pt tr i.x h

/-- Witness of C10: the toggle block run on the empty trace with X held. -/
theorem latch_agrees_with_actuator_witness :
    LatchAgrees false [] ∧
    LatchAgrees (pneumaticsToggle holdX.x false).2 ([] ++ (pneumaticsToggle holdX.x false).1) :=
  ⟨by decide, (latch_agrees_with_actuator.2 [] false (by decide) holdX).2.2.2⟩

/-! ## Debounce and level triggering -/

/-- C4: in every trace of the `opcontrol` loop, whatever the inputs, the
delay accumulated between two pneumatic commands (in particular two
consecutive ones) is at least the 250 ms debounce delay. -/
theorem toggle_debounce_gap (inputs : List Inputs) (a mid b : List Event) (p q : Event)
    (hsplit : (opcontrol inputs).1 = a ++ p :: (mid ++ q :: b))
    (hp : p.isPneumatic = true) (hq : q.isPneumatic = true) :
    250 ≤ totalDelay mid := by
  have hd : debounced (a ++ p :: (mid ++ q :: b)) = true := by
    rw [← hsplit]
    exact debounced_loop false inputs
  have hd2 := debounced_drop _ _ hd
  simp only [debounced, hp, Bool.not_true, Bool.false_or, Bool.and_eq_true, beq_iff_eq] at hd2
  cases mid with
  | nil =>
    simp only [List.nil_append, List.head?_cons, Option.some.injEq] at hd2
    rw [hd2.1] at hq
    simp [Event.isPneumatic] at hq
  | cons m rest =>
    simp only [List.cons_append, List.head?_cons, Option.some.injEq] at hd2
    rw [hd2.1]
    simp [totalDelay, Event.delayMs]

/-- Witness of C4: button X held for two iterations; the `extend` and the
`retract` are 260 ms apart. -/
theorem toggle_debounce_gap_witness :
    (opcontrol [holdX, holdX]).1 =
        [Event.arcade 0 0, Event.delay 10, Event.intakeMove 0, Event.sortMove 0]
          ++ Event.extend ::
            ([Event.delay 250, Event.arcade 0 0, Event.delay 10, Event.intakeMove 0,
                Event.sortMove 0]
              ++ Event.retract :: [Event.delay 250]) ∧
    250 ≤ totalDelay [Event.delay 250, Event.arcade 0 0, Event.delay 10, Event.intakeMove 0,
      Event.sortMove 0] :=
  ⟨by decide,
    toggle_debounce_gap [holdX, holdX]
      [Event.arcade 0 0, Event.delay 10, Event.intakeMove 0, Event.sortMove 0]
      [Event.delay 250, Event.arcade 0 0, Event.delay 10, Event.intakeMove 0, Event.sortMove 0]
      [Event.delay 250] Event.extend Event.retract (by decide) rfl rfl⟩

/-- C6 (counterexample): with button X held across two consecutive
iterations the loop issues two pneumatic commands, the second one in an
iteration whose predecessor also read X as pressed, and the latch changes
twice. -/
theorem held_button_retriggers :
    pneumaticCommands (opcontrol [holdX, holdX]).1 = [Event.extend, Event.retract] ∧
    (pneumaticCommands (opcontrol [holdX, holdX]).1).length ≠ 1 ∧
    pneumaticCommands (opcontrol_body (opcontrol [holdX]).2 holdX).1 = [Event.retract] ∧
    (opcontrol [holdX]).2 = true ∧ (opcontrol [holdX, holdX]).2 = false := by
  decide

/-- C6 (amended): the toggle is level-triggered.  An iteration issues one
pneumatic command and flips the latch exactly when it reads X as pressed,
whatever the previous iteration read; so a run of k iterations that all read
X as pressed issues exactly k pneumatic commands and flips the latch k
times. -/
theorem held_button_toggles_every_iteration (pistonToggle : Bool) (held : List Inputs)
    (h : ∀ i ∈ held, truthy i.x = true) :
    (pneumaticCommands (opcontrol_loop pistonToggle held).1).length = held.length ∧
    (opcontrol_loop pistonToggle held).2 = xor pistonToggle (decide (held.length % 2 = 1)) ∧
    (∀ (pt : Bool) (i : Inputs),
      pneumaticCommands (opcontrol_body pt i).1 =
          (if truthy i.x then [if pt then Event.retract else Event.extend] else []) ∧
      (opcontrol_body pt i).2 = (if truthy i.x then !pt else pt)) := by
  refine ⟨pneumaticCommands_loop_length pistonToggle held h, ?_, fun pt i => ?_⟩
  · rw [opcontrol_loop_latch, pressCount_of_held held h]
  · exact ⟨pneumaticCommands_body pt i, opcontrol_body_latch pt i⟩

/-- Witness of the amended C6: X held for three iterations. -/
theorem held_button_toggles_every_iteration_witness :
    (pneumaticCommands (opcontrol_loop false [holdX, busyInputs, holdX]).1).length = 3 ∧
    (opcontrol_loop false [holdX, busyInputs, holdX]).2 = true :=
  ⟨(held_button_toggles_every_iteration false [holdX, busyInputs, holdX] (by decide)).1,
    (held_button_toggles_every_iteration false [holdX, busyInputs, holdX] (by decide)).2.1⟩

/-! ## The colour-sort dwell -/

/-- C8: when the detected object matches, `colorSort` issues the +127 or
-127 sort command directly followed by the 500 ms delay and nothing else, the
iteration is suspended for 510 ms (plus 250 ms when X is pressed), and the
rest of the iteration issues no arcade, intake or sort command; when the
object does not match, `colorSort` adds no delay and the iteration is
suspended for exactly 10 ms, plus 250 ms exactly when X is pressed. -/
theorem colorSort_dwell (pistonToggle : Bool) (i : Inputs) :
    (sortMatch i.block = true →
      ∃ p : Int, (p = 127 ∨ p = -127) ∧
        colorSort i.block = [Event.sortMove p, Event.delay 500] ∧
        (∃ before after : List Event,
          (opcontrol_body pistonToggle i).1 =
              before ++ Event.sortMove p :: Event.delay 500 :: after ∧
          sortPowers before = [] ∧
          driveCommands after = [] ∧ intakePowers after = [] ∧ sortPowers after = []) ∧
        totalDelay (opcontrol_body pistonToggle i).1 = 510 + (if truthy i.x then 250 else 0) ∧
        510 ≤ totalDelay (opcontrol_body pistonToggle i).1) ∧
    (sortMatch i.block = false →
      totalDelay (colorSort i.block) = 0 ∧
      totalDelay (opcontrol_body pistonToggle i).1 = 10 + (if truthy i.x then 250 else 0)) := by
  constructor
  · intro hm
    have hc := colorSort_of_match i.block hm
    have htot : totalDelay (opcontrol_body pistonToggle i).1
        = 510 + (if truthy i.x then 250 else 0) := by
      unfold opcontrol_body
      simp only [totalDelay_append, totalDelay_manual_in_out, totalDelay_toggle, hc]
      simp [totalDelay, Event.delayMs]
    refine ⟨if i.block.signature = 3 then 127 else -127, ?_, hc, ?_, htot, ?_⟩
    · split_ifs <;> simp
    · refine ⟨[Event.arcade (neg32 i.rightX) (neg32 i.leftY), Event.delay 10]
          ++ manual_in_out i.r1 i.r2, (pneumaticsToggle i.x pistonToggle).1, ?_, ?_,
          driveCommands_toggle _ _, intakePowers_toggle _ _, sortPowers_toggle _ _⟩
      · unfold opcontrol_body
        simp [hc, List.append_assoc]
      · rw [sortPowers_append, sortPowers_manual_in_out]
        simp [sortPowers]
    · rw [htot]
      exact Nat.le_add_right _ _
  · intro hm
    have hc := colorSort_of_not_match i.block hm
    constructor
    · rw [hc]
      simp [totalDelay, Event.delayMs]
    · unfold opcontrol_body
      simp only [totalDelay_append, totalDelay_manual_in_out, totalDelay_toggle, hc]
      simp [totalDelay, Event.delayMs]

/-- Witness of C8: a wide red object with X held (760 ms in the iteration)
and an idle iteration (10 ms). -/
theorem colorSort_dwell_witness :
    sortMatch busyInputs.block = true ∧
    510 ≤ totalDelay (opcontrol_body false busyInputs).1 ∧
    sortMatch idleInputs.block = false ∧
    totalDelay (opcontrol_body false idleInputs).1 = 10 + (if truthy idleInputs.x then 250 else 0) :=
  ⟨by decide,
    let ⟨_, _, _, _, _, h⟩ := (colorSort_dwell false busyInputs).1 (by decide)
    h,
    by decide, ((colorSort_dwell false idleInputs).2 (by decide)).2⟩

/-! ## The smart-port table -/

/-- C9 (evaluation of the code): the physical ports of the table are not
pairwise distinct.  Port 20 is bound to a left drive motor and to the
horizontal rotation encoder, port 11 to a right drive motor and to the
vertical rotation encoder. -/
theorem physicalPorts_conflict :
    ¬ physicalPorts.Nodup ∧
    (20 : Int) ∈ leftMotors ∧ horizontalEnc = 20 ∧
    (-11 : Int) ∈ rightMotors ∧ verticalEnc = -11 ∧
    physicalPorts.count 20 = 2 ∧ physicalPorts.count 11 = 2 := by
  decide

end Shockwave
